import Mathlib

/-!
Shallow embedding of the gitcd-io/vscode-extension interactive subprocess
bridge (source file `src/unnamed/part_000`, function `runGitCdCommand` and
helper `stripAnsiCodes`).  Text is modelled as `List Char`.
-/

/-- Convert a string literal to the `List Char` text representation. -/
def chars (x : String) : List Char := x.toList

/-- JavaScript whitespace characters relevant to `trimEnd`/`trim` and the
regex class `\s` (ASCII subset: space, tab, LF, CR, VT, FF). -/
def isJsWs (c : Char) : Bool :=
  c == ' ' || c == '\t' || c == '\n' || c == '\r' || c == '\x0b' || c == '\x0c'

/-- Match the `[0-9;]*m` tail of an ANSI escape sequence (after `ESC [`).
Returns the remaining text after the closing `m`, or `none` if the
regex `\x1b\[[0-9;]*m` cannot match here (source line 14). -/
def ansiTail : List Char → Option (List Char)
  | [] => none
  | c :: cs =>
    if c = 'm' then some cs
    else if c.isDigit ∨ c = ';' then ansiTail cs
    else none

/-- Match `[` followed by `[0-9;]*m` (the part of the ANSI pattern after the
ESC character). -/
def ansiSeq : List Char → Option (List Char)
  | [] => none
  | b :: cs => if b = '[' then ansiTail cs else none

/-- Fuelled scanner for `text.replace(/\x1b\[[0-9;]*m/g, '')` (source lines
12-15): left-to-right scan, removing each matched escape sequence and
continuing after it.  Fuel bounds the number of scanned positions; the
wrapper passes the text length, which always suffices. -/
def stripAnsiFuel : Nat → List Char → List Char
  | 0, _ => []
  | _ + 1, [] => []
  | n + 1, c :: cs =>
    if c = '\x1b' then
      match ansiSeq cs with
      | some rest => stripAnsiFuel n rest
      | none => c :: stripAnsiFuel n cs
    else c :: stripAnsiFuel n cs

/-- `stripAnsiCodes` from source lines 12-15. -/
def stripAnsiCodes (t : List Char) : List Char := stripAnsiFuel t.length t

/-- JavaScript `String.prototype.trimEnd` on a single line. -/
def trimEnd (l : List Char) : List Char := (l.reverse.dropWhile isJsWs).reverse

/-- Drop leading JS whitespace. -/
def trimStart (l : List Char) : List Char := l.dropWhile isJsWs

/-- JavaScript `String.prototype.trim`. -/
def jsTrim (l : List Char) : List Char := trimEnd (trimStart l)

/-- JavaScript `text.split('\n')` (always returns at least one piece). -/
def splitLines : List Char → List (List Char)
  | [] => [[]]
  | c :: cs =>
    if c = '\n' then [] :: splitLines cs
    else
      match splitLines cs with
      | [] => [[c]]
      | l :: ls => (c :: l) :: ls

/-- JavaScript `Array.prototype.join('\n')`. -/
def joinLines : List (List Char) → List Char
  | [] => []
  | [l] => l
  | l :: l2 :: ls => l ++ '\n' :: joinLines (l2 :: ls)

/-- Source lines 246-249: split into lines, `trimEnd` each, rejoin. -/
def trimLines (t : List Char) : List Char := joinLines ((splitLines t).map trimEnd)

/-- The full sanitisation applied to a chunk before display (source lines
243-249): strip ANSI escape sequences, then trim trailing whitespace from
every line. -/
def sanitize (t : List Char) : List Char := trimLines (stripAnsiCodes t)

/-- Does `pat` occur as a prefix of `t`? -/
def beginsWith : List Char → List Char → Bool
  | [], _ => true
  | _ :: _, [] => false
  | p :: ps, c :: cs => p == c && beginsWith ps cs

/-- Lower-case every character (JS `toLowerCase` restricted to ASCII, which
covers every pattern the source uses). -/
def lowerList (l : List Char) : List Char := l.map Char.toLower

/-- Does `pat` occur as a contiguous substring of the text? -/
def hasSub (pat : List Char) : List Char → Bool
  | [] => pat.isEmpty
  | c :: cs => beginsWith pat (c :: cs) || hasSub pat cs

/-- Case-insensitive substring test (a `/pat/i` regex test for a literal
pattern). -/
def hasSubCI (pat t : List Char) : Bool := hasSub (lowerList pat) (lowerList t)

/-- Case-insensitive prefix test. -/
def beginsWithCI (pat t : List Char) : Bool := beginsWith (lowerList pat) (lowerList t)

/-- The regex test `/\?\s*$/`: the text ends with `?` followed only by
whitespace (source line 263). -/
def endsWithQM (t : List Char) : Bool :=
  match t.reverse.dropWhile isJsWs with
  | [] => false
  | c :: _ => c == '?'

/-- The literal `Default:` pattern. -/
def defaultPat : List Char := chars ("Default:")

/-- Semantics of `\s*(.+?)$` (multiline) applied to the text `s0` standing
right after a `Default:` occurrence: greedy `\s*`, then a lazy nonempty run
of non-newline characters, then end of line.  Returns the captured group if
a match exists at this occurrence. -/
def defaultCapture (s0 : List Char) : Option (List Char) :=
  let r := s0.dropWhile isJsWs
  if r.isEmpty then
    match (s0.filter (fun c => !(c == '\n'))).getLast? with
    | some c => some [c]
    | none => none
  else some (r.takeWhile (fun c => !(c == '\n')))

/-- Leftmost match of `/Default:\s*(.+?)$/m` (source line 296); also decides
the boolean test `/Default:\s*.+$/m` of source line 264, whose success
condition is identical. -/
def findDefault : List Char → Option (List Char)
  | [] => none
  | c :: cs =>
    if beginsWith defaultPat (c :: cs) then
      match defaultCapture ((c :: cs).drop defaultPat.length) with
      | some cap => some cap
      | none => findDefault cs
    else findDefault cs

/-- Source lines 296-299: `defaultValue` is the trimmed capture of the first
`Default:` match, or the empty string. -/
def extractDefault (t : List Char) : List Char :=
  match findDefault t with
  | some cap => jsTrim cap
  | none => []

/-- `yesNoPatterns.some(...)` (source lines 257-260 and 270): text contains
a case-insensitive `[y/n]` or `(yes/no)`. -/
def hasYesNoQuestion (t : List Char) : Bool :=
  hasSubCI (chars ("[y/n]")) t || hasSubCI (chars ("(yes/no)")) t

/-- `textInputPatterns.some(...)` (source lines 262-268 and 271). -/
def hasTextInputQuestion (t : List Char) : Bool :=
  endsWithQM t || (findDefault t).isSome ||
  hasSubCI (chars ("continue?")) t || hasSubCI (chars ("proceed?")) t ||
  hasSubCI (chars ("do you want")) t

/-- Combined prompt detection used by the stdout handler (source line 273,
without the writability conjunct). -/
def detectPrompt (t : List Char) : Bool := hasYesNoQuestion t || hasTextInputQuestion t

/-- Scan the (reversed) line list for the last line containing `?`; returns
that line trimmed (source lines 282-288). -/
def questionFromLinesRev : List (List Char) → Option (List Char)
  | [] => none
  | l :: ls =>
    let tl := jsTrim l
    if tl.contains '?' then some tl else questionFromLinesRev ls

/-- Last line with a nonempty trim, returned untrimmed (source line 292's
`lines.filter(l => l.trim()).pop()`), scanning the reversed list. -/
def lastNonEmptyLine : List (List Char) → Option (List Char)
  | [] => none
  | l :: ls => if (jsTrim l).isEmpty then lastNonEmptyLine ls else some l

/-- Question-text extraction (source lines 276-293): split the trimmed
accumulated pending text into lines; take the last line containing `?`,
else the last non-empty line, else the trimmed latest chunk. -/
def extractQuestion (cleanPending cleanOutput : List Char) : List Char :=
  let lines := splitLines (jsTrim cleanPending)
  match questionFromLinesRev lines.reverse with
  | some q => q
  | none =>
    match lastNonEmptyLine lines.reverse with
    | some l => l
    | none => jsTrim cleanOutput

/-- Does the whole text `s0` match `\s* marker \s* :? \s*` (the body of the
anchored replace regexes of source lines 303-304)? -/
def suffixMatchesMarker (marker : List Char) (s0 : List Char) : Bool :=
  let s1 := s0.dropWhile isJsWs
  if beginsWithCI marker s1 then
    match (s1.drop marker.length).dropWhile isJsWs with
    | [] => true
    | c :: s3 => c == ':' && s3.all isJsWs
  else false

/-- `text.replace(/\s*MARKER\s*:?\s*$/i, '')`: drop the leftmost suffix
matching the marker pattern, if any. -/
def stripMarkerSuffix (marker : List Char) : List Char → List Char
  | [] => []
  | c :: cs =>
    if suffixMatchesMarker marker (c :: cs) then []
    else c :: stripMarkerSuffix marker cs

/-- Source lines 303-304: strip a trailing `[y/n]` marker, then a trailing
`(yes/no)` marker, from the binary question text. -/
def cleanBinaryQuestion (t : List Char) : List Char :=
  stripMarkerSuffix (chars ("(yes/no)")) (stripMarkerSuffix (chars ("[y/n]")) t)

/-- Classification tag of a `PromptCandidate`. -/
inductive PromptKind
  | noPrompt
  | binary
  | freeText
deriving DecidableEq, Repr

/-- A classified prompt: tag, extracted question text, optional default
value (empty when absent), per the spec's data model, computed as the code
computes it (source lines 270-304). -/
structure PromptCandidate where
  kind : PromptKind
  question : List Char
  defaultValue : List Char
deriving DecidableEq, Repr

/-- The Answer produced by the collector: text written to the subprocess
input and the cancellation flag. -/
structure Answer where
  text : List Char
  cancelled : Bool
deriving DecidableEq, Repr

/-- The two quick-pick items offered for a binary prompt. -/
inductive BinChoice
  | yes
  | no
deriving DecidableEq, Repr

/-- `answer.toLowerCase()` of the selected quick-pick label. -/
def choiceWord : BinChoice → List Char
  | BinChoice.yes => chars ("yes")
  | BinChoice.no => chars ("no")

/-- The quick-pick label as displayed. -/
def choiceLabel : BinChoice → List Char
  | BinChoice.yes => chars ("Yes")
  | BinChoice.no => chars ("No")

/-- The code's classification of one stdout arrival: detection patterns run
on the sanitised latest chunk `cleanOutput`, extraction on the ANSI-stripped
accumulated pending text `cleanPending` (source lines 270-304). -/
def classifyOutput (cleanPending cleanOutput : List Char) : PromptCandidate :=
  if hasYesNoQuestion cleanOutput then
    { kind := PromptKind.binary
      question := cleanBinaryQuestion (extractQuestion cleanPending cleanOutput)
      defaultValue := extractDefault cleanPending }
  else if hasTextInputQuestion cleanOutput then
    { kind := PromptKind.freeText
      question := extractQuestion cleanPending cleanOutput
      defaultValue := extractDefault cleanPending }
  else
    { kind := PromptKind.noPrompt, question := [], defaultValue := [] }

/-- An ordered action on the subprocess handle. -/
inductive ProcEffect
  | writeStdin (t : List Char)
  | kill
deriving DecidableEq, Repr

/-- Mutable state of one Process Session while running (source lines
234-236): accumulated stdout, accumulated stderr, and the pending-output
buffer used for prompt detection. -/
structure SessionState where
  stdoutAcc : List Char
  stderrAcc : List Char
  pending : List Char
deriving DecidableEq, Repr

/-- Session state at spawn time. -/
def initialSession : SessionState := { stdoutAcc := [], stderrAcc := [], pending := [] }

/-- Everything one execution of the stdout `data` handler produces. -/
structure StepResult where
  stdoutAcc : List Char
  pending : List Char
  displayAppends : List (List Char)
  promptShown : Option PromptCandidate
  answer : Option Answer
  procEffects : List ProcEffect
deriving DecidableEq, Repr

/-- The log line of source line 315. -/
def userSelectedLine (ch : BinChoice) : List Char :=
  chars ("[User selected: ") ++ choiceLabel ch ++ chars ("]\n")

/-- The log line of source line 332. -/
def userEnteredLine (ans : List Char) : List Char :=
  chars ("[User entered: ") ++
  (if ans.isEmpty then chars ("(empty - using default)") else ans) ++ chars ("]\n")

/-- One execution of the stdout `data` handler (source lines 238-342).
`writable` is `child.stdin.writable`; `binAnswer` is what
`showQuickPick` resolves to when the binary path runs (`none` = dismissed);
`textAnswer` is what `showInputBox` resolves to when the free-text path runs
(`none` = dismissed, `some []` = submitted empty). -/
def onStdoutData (st : SessionState) (chunk : List Char) (writable : Bool)
    (binAnswer : Option BinChoice) (textAnswer : Option (List Char)) : StepResult :=
  let cleanOutput := stripAnsiCodes chunk
  let cleanedLines := trimLines cleanOutput
  let pending1 := st.pending ++ chunk
  if detectPrompt cleanOutput && writable then
    let cleanPending := stripAnsiCodes pending1
    let q0 := extractQuestion cleanPending cleanOutput
    let dv := extractDefault cleanPending
    if hasYesNoQuestion cleanOutput then
      let q := cleanBinaryQuestion q0
      match binAnswer with
      | some ch =>
        { stdoutAcc := st.stdoutAcc ++ chunk
          pending := []
          displayAppends := [cleanedLines, userSelectedLine ch]
          promptShown := some { kind := PromptKind.binary, question := q, defaultValue := dv }
          answer := some { text := choiceWord ch ++ chars ("\n"), cancelled := false }
          procEffects := [ProcEffect.writeStdin (choiceWord ch ++ chars ("\n"))] }
      | none =>
        { stdoutAcc := st.stdoutAcc ++ chunk
          pending := []
          displayAppends := [cleanedLines]
          promptShown := some { kind := PromptKind.binary, question := q, defaultValue := dv }
          answer := some { text := chars ("no\n"), cancelled := true }
          procEffects := [ProcEffect.writeStdin (chars ("no\n")), ProcEffect.kill] }
    else
      match textAnswer with
      | some ans =>
        { stdoutAcc := st.stdoutAcc ++ chunk
          pending := []
          displayAppends := [cleanedLines, userEnteredLine ans]
          promptShown := some { kind := PromptKind.freeText, question := q0, defaultValue := dv }
          answer := some { text := ans ++ chars ("\n"), cancelled := false }
          procEffects := [ProcEffect.writeStdin (ans ++ chars ("\n"))] }
      | none =>
        { stdoutAcc := st.stdoutAcc ++ chunk
          pending := []
          displayAppends := [cleanedLines]
          promptShown := some { kind := PromptKind.freeText, question := q0, defaultValue := dv }
          answer := some { text := [], cancelled := true }
          procEffects := [ProcEffect.kill] }
  else
    { stdoutAcc := st.stdoutAcc ++ chunk
      pending := pending1
      displayAppends := [cleanedLines]
      promptShown := none
      answer := none
      procEffects := [] }

/-- Fold a stdout arrival back into the session state. -/
def applyStdout (st : SessionState) (chunk : List Char) (writable : Bool)
    (binAnswer : Option BinChoice) (textAnswer : Option (List Char)) : SessionState :=
  let r := onStdoutData st chunk writable binAnswer textAnswer
  { stdoutAcc := r.stdoutAcc, stderrAcc := st.stderrAcc, pending := r.pending }

/-- One execution of the stderr `data` handler (source lines 344-351):
accumulate and display only; no prompt detection, no buffer change. -/
def onStderrData (st : SessionState) (chunk : List Char) : SessionState × List Char :=
  ({ stdoutAcc := st.stdoutAcc, stderrAcc := st.stderrAcc ++ chunk, pending := st.pending },
   trimLines (stripAnsiCodes chunk))

/-- How one invocation ends at the process boundary: the `close` event with
an exit code, or the spawn-level `error` event with a message. -/
inductive ExitEvent
  | closed (code : Int)
  | errored (msg : List Char)
deriving DecidableEq, Repr

/-- Terminal outcome reported to the caller. -/
inductive RunOutcome
  | success
  | exitFailure (code : Int)
  | spawnFailure (msg : List Char)
deriving DecidableEq, Repr

/-- Source lines 353-376: the `error` handler rejects with the message; the
`close` handler resolves on code 0 and rejects with the code otherwise. -/
def runOutcome : ExitEvent → RunOutcome
  | ExitEvent.closed code => if code = 0 then RunOutcome.success else RunOutcome.exitFailure code
  | ExitEvent.errored msg => RunOutcome.spawnFailure msg

/-- Abstract filesystem: which paths exist on disk. -/
structure FsEnv where
  pathExists : List Char → Bool

/-- The distinct pre-spawn failures (source lines 169-197). -/
inductive PreFailure
  | noWorkspaceFolder
  | pythonNotFound
  | gitcdNotFound
deriving DecidableEq, Repr

/-- Result of the pre-spawn phase: a reported precondition failure, or a
spawn request with interpreter, argv and working directory. -/
inductive InvokeStart
  | failed (f : PreFailure)
  | spawned (interpreter : List Char) (argv : List (List Char)) (cwd : List Char)
deriving DecidableEq, Repr

/-- The pre-spawn phase of `runGitCdCommand` (source lines 165-232):
workspace check, then interpreter existence, then executable existence;
only then `spawn(pythonPath, [gitcdPath, ...args], { cwd })`. -/
def invokeStart (fs : FsEnv) (workspaceFolder : Option (List Char))
    (pythonPath gitcdPath : List Char) (args : List (List Char)) : InvokeStart :=
  match workspaceFolder with
  | none => InvokeStart.failed PreFailure.noWorkspaceFolder
  | some w =>
    if !(fs.pathExists pythonPath) then InvokeStart.failed PreFailure.pythonNotFound
    else if !(fs.pathExists gitcdPath) then InvokeStart.failed PreFailure.gitcdNotFound
    else InvokeStart.spawned pythonPath (gitcdPath :: args) w

/-! ### Helper lemmas for the sanitizer -/

theorem splitLines_ne_nil (t : List Char) : splitLines t ≠ [] := by
  cases t with
  | nil => simp [splitLines]
  | cons c cs =>
    by_cases hc : c = '\n'
    · simp [splitLines, hc]
    · simp only [splitLines, if_neg hc]
      cases splitLines cs <;> simp

theorem mem_trimEnd {a : Char} {l : List Char} (h : a ∈ trimEnd l) : a ∈ l := by
  unfold trimEnd at h
  rw [List.mem_reverse] at h
  exact List.mem_reverse.mp ((List.dropWhile_sublist _).subset h)

theorem mem_of_mem_splitLines : ∀ {t l : List Char} {a : Char},
    l ∈ splitLines t → a ∈ l → a ∈ t := by
  intro t
  induction t with
  | nil =>
    intro l a hl ha
    simp [splitLines] at hl
    subst hl
    cases ha
  | cons c cs ih =>
    intro l a hl ha
    by_cases hc : c = '\n'
    · simp only [splitLines, if_pos hc] at hl
      rcases List.mem_cons.mp hl with h1 | h2
      · subst h1; cases ha
      · exact List.mem_cons_of_mem _ (ih h2 ha)
    · rcases hsp : splitLines cs with _ | ⟨l0, ls⟩
      · exact absurd hsp (splitLines_ne_nil cs)
      · simp only [splitLines, if_neg hc, hsp] at hl
        rcases List.mem_cons.mp hl with h1 | h2
        · subst h1
          rcases List.mem_cons.mp ha with h3 | h4
          · subst h3; exact List.mem_cons_self _ _
          · have : a ∈ cs := ih (by rw [hsp]; exact List.mem_cons_self _ _) h4
            exact List.mem_cons_of_mem _ this
        · have : a ∈ cs := ih (by rw [hsp]; exact List.mem_cons_of_mem _ h2) ha
          exact List.mem_cons_of_mem _ this

theorem no_newline_mem_splitLines : ∀ {t l : List Char},
    l ∈ splitLines t → '\n' ∉ l := by
  intro t
  induction t with
  | nil =>
    intro l hl
    simp [splitLines] at hl
    subst hl
    simp
  | cons c cs ih =>
    intro l hl
    by_cases hc : c = '\n'
    · simp only [splitLines, if_pos hc] at hl
      rcases List.mem_cons.mp hl with h1 | h2
      · subst h1; simp
      · exact ih h2
    · rcases hsp : splitLines cs with _ | ⟨l0, ls⟩
      · exact absurd hsp (splitLines_ne_nil cs)
      · simp only [splitLines, if_neg hc, hsp] at hl
        rcases List.mem_cons.mp hl with h1 | h2
        · subst h1
          intro hmem
          rcases List.mem_cons.mp hmem with h3 | h4
          · exact hc h3.symm
          · exact ih (by rw [hsp]; exact List.mem_cons_self _ _) h4
        · exact ih (by rw [hsp]; exact List.mem_cons_of_mem _ h2)

theorem mem_joinLines : ∀ {ls : List (List Char)} {a : Char},
    a ∈ joinLines ls → a = '\n' ∨ ∃ l, l ∈ ls ∧ a ∈ l := by
  intro ls
  induction ls with
  | nil => intro a ha; cases ha
  | cons l ls ih =>
    intro a ha
    cases ls with
    | nil =>
      right
      exact ⟨l, List.mem_cons_self _ _, by simpa [joinLines] using ha⟩
    | cons l2 ls2 =>
      simp only [joinLines] at ha
      rcases List.mem_append.mp ha with h1 | h2
      · exact Or.inr ⟨l, List.mem_cons_self _ _, h1⟩
      · rcases List.mem_cons.mp h2 with h3 | h4
        · exact Or.inl h3
        · rcases ih h4 with h5 | ⟨l3, hl3, ha3⟩
          · exact Or.inl h5
          · exact Or.inr ⟨l3, List.mem_cons_of_mem _ hl3, ha3⟩

theorem esc_not_mem_trimLines {t : List Char} (h : '\x1b' ∉ t) : '\x1b' ∉ trimLines t := by
  intro hmem
  unfold trimLines at hmem
  rcases mem_joinLines hmem with h1 | ⟨l, hl, hal⟩
  · exact absurd h1 (by decide)
  · rcases List.mem_map.mp hl with ⟨l0, hl0, rfl⟩
    exact h (mem_of_mem_splitLines hl0 (mem_trimEnd hal))

theorem dropWhile_idem (p : Char → Bool) : ∀ l : List Char,
    List.dropWhile p (List.dropWhile p l) = List.dropWhile p l
  | [] => rfl
  | c :: cs => by
    by_cases h : p c
    · simp [List.dropWhile_cons, h, dropWhile_idem p cs]
    · simp [List.dropWhile_cons, h]

theorem trimEnd_idem (l : List Char) : trimEnd (trimEnd l) = trimEnd l := by
  unfold trimEnd
  rw [List.reverse_reverse, dropWhile_idem]

theorem no_newline_trimEnd {l : List Char} (h : '\n' ∉ l) : '\n' ∉ trimEnd l :=
  fun hm => h (mem_trimEnd hm)

theorem splitLines_no_newline : ∀ {l : List Char}, '\n' ∉ l → splitLines l = [l] := by
  intro l
  induction l with
  | nil => intro _; rfl
  | cons c cs ih =>
    intro h
    have hc : ¬ c = '\n' := fun hh => h (hh ▸ List.mem_cons_self _ _)
    have hcs : '\n' ∉ cs := fun hh => h (List.mem_cons_of_mem _ hh)
    simp only [splitLines, if_neg hc, ih hcs]

theorem splitLines_append : ∀ {l r : List Char}, '\n' ∉ l →
    splitLines (l ++ '\n' :: r) = l :: splitLines r := by
  intro l
  induction l with
  | nil =>
    intro r _
    simp [splitLines]
  | cons c cs ih =>
    intro r h
    have hc : ¬ c = '\n' := fun hh => h (hh ▸ List.mem_cons_self _ _)
    have hcs : '\n' ∉ cs := fun hh => h (List.mem_cons_of_mem _ hh)
    simp only [List.cons_append, splitLines, if_neg hc, List.append_eq, ih hcs]

theorem splitLines_joinLines : ∀ {ls : List (List Char)}, ls ≠ [] →
    (∀ l ∈ ls, '\n' ∉ l) → splitLines (joinLines ls) = ls := by
  intro ls
  induction ls with
  | nil => intro h _; exact absurd rfl h
  | cons l ls ih =>
    intro _ hnl
    cases ls with
    | nil =>
      simp only [joinLines]
      exact splitLines_no_newline (hnl l (List.mem_cons_self _ _))
    | cons l2 ls2 =>
      simp only [joinLines]
      rw [splitLines_append (hnl l (List.mem_cons_self _ _))]
      rw [ih (by simp) (fun x hx => hnl x (List.mem_cons_of_mem _ hx))]

theorem trimLines_idem (t : List Char) : trimLines (trimLines t) = trimLines t := by
  conv_lhs => rw [trimLines]
  rw [show trimLines t = joinLines ((splitLines t).map trimEnd) from rfl]
  rw [splitLines_joinLines
    (by
      intro h
      exact splitLines_ne_nil t (List.map_eq_nil_iff.mp h))
    (by
      intro l hl
      rcases List.mem_map.mp hl with ⟨l0, hl0, rfl⟩
      exact no_newline_trimEnd (no_newline_mem_splitLines hl0))]
  rw [List.map_map]
  have hcomp : trimEnd ∘ trimEnd = trimEnd := funext trimEnd_idem
  rw [hcomp]

theorem stripAnsiFuel_no_esc : ∀ (t : List Char) (n : Nat), t.length ≤ n →
    '\x1b' ∉ t → stripAnsiFuel n t = t := by
  intro t
  induction t with
  | nil =>
    intro n _ _
    cases n <;> rfl
  | cons c cs ih =>
    intro n hn h
    cases n with
    | zero => simp at hn
    | succ m =>
      have hc : ¬ c = '\x1b' := fun hh => h (hh ▸ List.mem_cons_self _ _)
      have hcs : '\x1b' ∉ cs := fun hh => h (List.mem_cons_of_mem _ hh)
      have hm : cs.length ≤ m := Nat.le_of_succ_le_succ hn
      simp only [stripAnsiFuel, if_neg hc, ih m hm hcs]

theorem stripAnsiCodes_no_esc {t : List Char} (h : '\x1b' ∉ t) : stripAnsiCodes t = t :=
  stripAnsiFuel_no_esc t t.length le_rfl h

theorem sanitize_idem_of_no_esc (t : List Char) (h : '\x1b' ∉ t) :
    sanitize (sanitize t) = sanitize t := by
  unfold sanitize
  rw [stripAnsiCodes_no_esc h]
  rw [stripAnsiCodes_no_esc (esc_not_mem_trimLines h)]
  exact trimLines_idem t

/-! ### Claim theorems -/

/-- Claim C1 (counterexample): with pending buffer `"[y/"` and newly arrived
chunk `"n]"`, the concatenated unconsumed output `"[y/n]"` matches a binary
pattern, yet the handler classifies the arrival as no prompt (no collector
invoked) and leaves the buffer uncleared: detection is NOT evaluated against
the full accumulated pending buffer. -/
theorem claim1_counterexample :
    hasYesNoQuestion (stripAnsiCodes
        ((applyStdout initialSession (chars ("[y/")) true none none).pending ++ chars ("n]"))) = true
    ∧ (onStdoutData (applyStdout initialSession (chars ("[y/")) true none none)
        (chars ("n]")) true none none).promptShown = none
    ∧ (onStdoutData (applyStdout initialSession (chars ("[y/")) true none none)
        (chars ("n]")) true none none).pending = chars ("[y/n]") := by decide

/-- Claim C1 (amended): the prompt-detection rules are evaluated against the
ANSI-stripped text of the most recently arrived stdout chunk only (together
with stdin writability); classification at a chunk's arrival does not depend
on the accumulated pending buffer, which is used only for question-text and
default-value extraction. -/
theorem claim1_amended (st : SessionState) (chunk : List Char) (w : Bool)
    (ba : Option BinChoice) (ta : Option (List Char)) :
    (onStdoutData st chunk w ba ta).promptShown.isSome
      = (detectPrompt (stripAnsiCodes chunk) && w) := by
  simp only [onStdoutData]
  split
  · rename_i hcond
    split
    · cases ba <;> simp [hcond]
    · cases ta <;> simp [hcond]
  · rename_i hcond
    simp only [Option.isSome_none]
    exact (Bool.not_eq_true _).mp (fun hh => hcond hh) |>.symm

/-- Claim C2: the pending-output buffer is cleared exactly when a prompt has
been fully handled (an Answer was produced, i.e. either written to stdin or
the process killed — the answer is present iff some process effect was
issued), it is never cleared on a "none" classification (no prompt shown iff
no answer), and whenever no answer is produced the buffer equals its
previous value with the new chunk appended. -/
theorem claim2_pending_invariant (st : SessionState) (chunk : List Char) (w : Bool)
    (ba : Option BinChoice) (ta : Option (List Char)) :
    (onStdoutData st chunk w ba ta).pending
      = (if (onStdoutData st chunk w ba ta).answer.isSome then [] else st.pending ++ chunk)
    ∧ (onStdoutData st chunk w ba ta).promptShown.isNone = (onStdoutData st chunk w ba ta).answer.isNone
    ∧ (onStdoutData st chunk w ba ta).answer.isSome = !(onStdoutData st chunk w ba ta).procEffects.isEmpty := by
  simp only [onStdoutData]
  split
  · split
    · cases ba <;> simp
    · cases ta <;> simp
  · simp

/-- Claim C3: for a binary prompt, if the human dismisses the quick pick
without choosing, the Answer carries the cancellation flag AND the literal
text `no\n` is still written to the subprocess stdin before the process is
killed, in that order. -/
theorem claim3_binary_dismiss (st : SessionState) (chunk : List Char) (ta : Option (List Char))
    (h : hasYesNoQuestion (stripAnsiCodes chunk) = true) :
    (onStdoutData st chunk true none ta).answer
      = some { text := chars ("no\n"), cancelled := true }
    ∧ (onStdoutData st chunk true none ta).procEffects
      = [ProcEffect.writeStdin (chars ("no\n")), ProcEffect.kill] := by
  simp [onStdoutData, detectPrompt, h]

/-- Claim C3 witness: the dismissal behaviour on the concrete chunk
`"Continue? [y/n]: "`. -/
theorem claim3_witness :
    (onStdoutData initialSession (chars ("Continue? [y/n]: ")) true none none).answer
      = some { text := chars ("no\n"), cancelled := true }
    ∧ (onStdoutData initialSession (chars ("Continue? [y/n]: ")) true none none).procEffects
      = [ProcEffect.writeStdin (chars ("no\n")), ProcEffect.kill] :=
  claim3_binary_dismiss initialSession (chars ("Continue? [y/n]: ")) none (by decide)

/-- Claim C4: for a free-text prompt, submitting the empty string writes
exactly `"\n"` to stdin and does not cancel, while dismissing the input box
writes nothing, carries the cancellation flag, and kills the process. -/
theorem claim4_freetext_empty_vs_dismiss (st : SessionState) (chunk : List Char)
    (ba : Option BinChoice)
    (h1 : hasYesNoQuestion (stripAnsiCodes chunk) = false)
    (h2 : hasTextInputQuestion (stripAnsiCodes chunk) = true) :
    (onStdoutData st chunk true ba (some [])).procEffects
      = [ProcEffect.writeStdin (chars ("\n"))]
    ∧ (onStdoutData st chunk true ba (some [])).answer
      = some { text := chars ("\n"), cancelled := false }
    ∧ (onStdoutData st chunk true ba none).procEffects = [ProcEffect.kill]
    ∧ (onStdoutData st chunk true ba none).answer = some { text := [], cancelled := true } := by
  simp [onStdoutData, detectPrompt, h1, h2]

/-- Claim C4 witness: empty submission vs dismissal on the concrete chunk
`"Enter branch name?"`. -/
theorem claim4_witness :
    (onStdoutData initialSession (chars ("Enter branch name?")) true none (some [])).procEffects
      = [ProcEffect.writeStdin (chars ("\n"))]
    ∧ (onStdoutData initialSession (chars ("Enter branch name?")) true none none).procEffects
      = [ProcEffect.kill] := by
  have h := claim4_freetext_empty_vs_dismiss initialSession (chars ("Enter branch name?")) none
    (by decide) (by decide)
  exact ⟨h.1, h.2.2.1⟩

/-- Claim C5: whenever a binary pattern matches (case-insensitive `[y/n]` or
`(yes/no)` anywhere), the classification is binary, regardless of whether
any free-text pattern also matches: the binary branch is tested first. -/
theorem claim5_binary_precedence (pendingText t : List Char)
    (h : hasYesNoQuestion t = true) :
    (classifyOutput pendingText t).kind = PromptKind.binary := by
  simp [classifyOutput, h]

/-- Claim C5 witness: `"Delete branch foo? [y/n]: "` also ends in a free-text
pattern, yet classifies binary. -/
theorem claim5_witness :
    (classifyOutput (chars ("Delete branch foo? [y/n]: "))
      (chars ("Delete branch foo? [y/n]: "))).kind = PromptKind.binary :=
  claim5_binary_precedence _ _ (by decide)

/-- Claim C6 (counterexample): for the input text `"Continue? [y/n]: "` the
cleaned question text is not `"Continue"`: the marker-stripping regexes
remove only the `[y/n]` marker with its colon and surrounding whitespace,
leaving the trailing question mark in place. -/
theorem claim6_counterexample :
    (classifyOutput (chars ("Continue? [y/n]: ")) (chars ("Continue? [y/n]: "))).question
      ≠ chars ("Continue") := by decide

/-- Claim C6 (amended): for the input text `"Continue? [y/n]: "`,
classification is binary and the cleaned question text is exactly
`"Continue?"` (the question mark is retained). -/
theorem claim6_amended :
    (classifyOutput (chars ("Continue? [y/n]: ")) (chars ("Continue? [y/n]: "))).kind
      = PromptKind.binary
    ∧ (classifyOutput (chars ("Continue? [y/n]: ")) (chars ("Continue? [y/n]: "))).question
      = chars ("Continue?") := by decide

/-- Claim C7 (counterexample): sanitize is not idempotent on all texts.  In
`"\x1b[3\x1b[0m1m"` the first pass removes the inner `\x1b[0m`, gluing the
remaining characters into the new escape sequence `"\x1b[31m"`, which a
second pass removes. -/
theorem claim7_counterexample :
    sanitize (sanitize (chars ("\x1b[3\x1b[0m1m"))) ≠ sanitize (chars ("\x1b[3\x1b[0m1m")) := by
  decide

/-- Claim C7 (amended): sanitize is idempotent on every text that contains
no ESC character; only a stripped escape sequence abutting surrounding text
into a new escape sequence can break idempotence. -/
theorem claim7_amended (t : List Char) (h : '\x1b' ∉ t) :
    sanitize (sanitize t) = sanitize t :=
  sanitize_idem_of_no_esc t h

/-- Claim C7 witness: idempotence at the ESC-free text `"git status "`. -/
theorem claim7_witness :
    '\x1b' ∉ chars ("git status ")
    ∧ sanitize (sanitize (chars ("git status "))) = sanitize (chars ("git status ")) :=
  ⟨by decide, claim7_amended (chars ("git status ")) (by decide)⟩

/-- Claim C8: the terminal outcome is determined solely by the exit code:
code 0 yields success, any nonzero code yields a failure carrying that
numeric code, and a spawn-level error yields a failure carrying the error
message instead of a code. -/
theorem claim8_exit_outcome (c : Int) (m : List Char) :
    (runOutcome (ExitEvent.closed c) = RunOutcome.success ↔ c = 0)
    ∧ (runOutcome (ExitEvent.closed c) = RunOutcome.exitFailure c ↔ c ≠ 0)
    ∧ runOutcome (ExitEvent.errored m) = RunOutcome.spawnFailure m := by
  refine ⟨?_, ?_, rfl⟩ <;> by_cases hc : c = 0 <;> simp [runOutcome, hc]

/-- Claim C8 witness: outcomes at exit codes 0 and 2 and at a concrete spawn
error. -/
theorem claim8_witness :
    runOutcome (ExitEvent.closed 0) = RunOutcome.success
    ∧ runOutcome (ExitEvent.closed 2) = RunOutcome.exitFailure 2
    ∧ runOutcome (ExitEvent.errored (chars ("spawn ENOENT")))
      = RunOutcome.spawnFailure (chars ("spawn ENOENT")) :=
  ⟨(claim8_exit_outcome 0 []).1.mpr rfl,
   (claim8_exit_outcome 2 []).2.1.mpr (by decide),
   (claim8_exit_outcome 0 (chars ("spawn ENOENT"))).2.2⟩

/-- Claim C9: each of the three preconditions (workspace known, interpreter
path exists, executable path exists) is checked before spawning; each
failing precondition produces a distinct reported failure, and if the
executable path does not exist no spawn request is ever produced. -/
theorem claim9_preconditions (fs : FsEnv) (py gc w : List Char) (args : List (List Char)) :
    invokeStart fs none py gc args = InvokeStart.failed PreFailure.noWorkspaceFolder
    ∧ (fs.pathExists py = false →
        invokeStart fs (some w) py gc args = InvokeStart.failed PreFailure.pythonNotFound)
    ∧ (fs.pathExists py = true → fs.pathExists gc = false →
        invokeStart fs (some w) py gc args = InvokeStart.failed PreFailure.gitcdNotFound)
    ∧ (fs.pathExists gc = false →
        ∀ (ws : Option (List Char)) (i cw : List Char) (av : List (List Char)),
          invokeStart fs ws py gc args ≠ InvokeStart.spawned i av cw)
    ∧ PreFailure.noWorkspaceFolder ≠ PreFailure.pythonNotFound
    ∧ PreFailure.pythonNotFound ≠ PreFailure.gitcdNotFound
    ∧ PreFailure.noWorkspaceFolder ≠ PreFailure.gitcdNotFound := by
  refine ⟨rfl, ?_, ?_, ?_, by decide, by decide, by decide⟩
  · intro h
    simp [invokeStart, h]
  · intro h1 h2
    simp [invokeStart, h1, h2]
  · intro hgc ws i cw av
    cases ws with
    | none => simp [invokeStart]
    | some w2 =>
      by_cases hp : fs.pathExists py <;> simp [invokeStart, hp, hgc]

/-- Claim C9 witness: with a filesystem on which only the interpreter
exists, invocation fails with the distinct executable-missing failure, and
with no workspace it fails with the workspace failure; neither spawns. -/
theorem claim9_witness :
    invokeStart (FsEnv.mk (fun p => p == chars ("/usr/bin/python3"))) (some (chars ("/repo")))
      (chars ("/usr/bin/python3")) (chars ("/home/u/.local/bin/git-cd"))
      [chars ("status")] = InvokeStart.failed PreFailure.gitcdNotFound
    ∧ invokeStart (FsEnv.mk (fun p => p == chars ("/usr/bin/python3"))) none
      (chars ("/usr/bin/python3")) (chars ("/home/u/.local/bin/git-cd"))
      [chars ("status")] = InvokeStart.failed PreFailure.noWorkspaceFolder := by
  have h := claim9_preconditions (FsEnv.mk (fun p => p == chars ("/usr/bin/python3")))
    (chars ("/usr/bin/python3")) (chars ("/home/u/.local/bin/git-cd"))
    (chars ("/repo")) [chars ("status")]
  exact ⟨h.2.2.1 (by decide) (by decide), h.1⟩

/-- Claim C10: when a chunk matches a prompt pattern but stdin is not
writable, no collector is invoked, no answer is produced, nothing is written
and the process is not killed, while the chunk is still appended to the
display stream and to the pending buffer (which is not cleared) and to the
accumulated stdout. -/
theorem claim10_not_writable (st : SessionState) (chunk : List Char)
    (ba : Option BinChoice) (ta : Option (List Char))
    (_h : detectPrompt (stripAnsiCodes chunk) = true) :
    (onStdoutData st chunk false ba ta).promptShown = none
    ∧ (onStdoutData st chunk false ba ta).answer = none
    ∧ (onStdoutData st chunk false ba ta).procEffects = []
    ∧ (onStdoutData st chunk false ba ta).displayAppends = [trimLines (stripAnsiCodes chunk)]
    ∧ (onStdoutData st chunk false ba ta).pending = st.pending ++ chunk
    ∧ (onStdoutData st chunk false ba ta).stdoutAcc = st.stdoutAcc ++ chunk := by
  simp [onStdoutData]

/-- Claim C10 witness: the concrete prompt chunk `"Proceed? [y/n]"` arriving
while stdin is not writable yields no effects and an uncleared buffer. -/
theorem claim10_witness :
    detectPrompt (stripAnsiCodes (chars ("Proceed? [y/n]"))) = true
    ∧ (onStdoutData initialSession (chars ("Proceed? [y/n]")) false none none).procEffects = []
    ∧ (onStdoutData initialSession (chars ("Proceed? [y/n]")) false none none).pending
      = chars ("Proceed? [y/n]") := by
  have h := claim10_not_writable initialSession (chars ("Proceed? [y/n]")) none none (by decide)
  refine ⟨by decide, h.2.2.1, ?_⟩
  have h2 := h.2.2.2.2.1
  simpa [initialSession] using h2
